import Mathlib

/-!
Verification development for the NumeriCal interpreter (Go).

This file gives a shallow embedding of the two source files of the
repository — the lexer token model plus the evaluator (src/lexer/token.go)
and the Pratt parser (src/unnamed/part_000, package parser) — and settles
the claims of the specification against it.

Modelling conventions:
* Go float64 values are modelled as exact rationals (Rat).  Points where
  IEEE semantics diverge from exact arithmetic (division by zero, inexact
  quotients) are noted at the definition and are not relied on by any
  theorem.
* Go maps are modelled as association lists with first-match lookup and
  overwrite-on-insert; iteration order is the list order.
* Go interface values that may be nil are modelled with Option; a nil
  dereference or failing type assertion is the distinguished outcome
  Failure.panicked.  Go errors are Failure.err carrying the message string.
* Recursion of the parser and of the evaluator is fuel-indexed; running
  out of fuel is the outcome Failure.fuel, which no theorem identifies
  with a Go behaviour.
* The units registry (the external go-units library) and the builtin
  function bodies (frac, print, root, lookup) are outside the repository;
  they are modelled from the specification where noted.
-/

namespace NumeriCal

/-! ## Token and node kind constants, from src/lexer/token.go lines 32-99. -/

namespace lexer

def ERROR : String := "ERROR"

def NIL : String := "NIL"

def EOF : String := "EOF"

def INT : String := "INT"

def STRING : String := "STRING"

def FLOAT : String := "FLOAT"

def IDENTIFIER : String := "IDENTIFIER"

def UNIT : String := "UNIT"

def EQ : String := "EQ"

def EE : String := "EE"

def NE : String := "NE"

def LT : String := "LT"

def LTE : String := "LTE"

def GT : String := "GT"

def GTE : String := "GTE"

def ADD : String := "ADD"

def SUB : String := "SUB"

def DIV : String := "DIV"

def MUL : String := "MUL"

def POW : String := "POW"

def MOD : String := "MOD"

def NOT : String := "NOT"

def LPAREN : String := "LPAREN"

def RPAREN : String := "RPAREN"

def LSQUARE : String := "LSQUARE"

def RSQUARE : String := "RSQUARE"

def SEMICOLON : String := "SEMICOLON"

def COMMA : String := "COMMA"

def ARROW : String := "ARROW"

def TILDE : String := "TILDE"

def IN : String := "IN"

def DEFINE : String := "DEFINE"

def PROGRAM_NODE : String := "PROGRAM_NODE"

def IDENTIFIER_NODE : String := "IDENTIFIER_NODE"

def INT_NODE : String := "INT_NODE"

def STRING_NODE : String := "STRING_NODE"

def FLOAT_NODE : String := "FLOAT_NODE"

def UNIT_NODE : String := "UNIT_NODE"

def BIN_OP_NODE : String := "BIN_OP_NODE"

def UNARY_OP_NODE : String := "UNARY_OP_NODE"

def FUNCTION_CALL_NODE : String := "FUNCTION_CALL_NODE"

def ARRAY_NODE : String := "ARRAY_NODE"

def ASSIGN_NODE : String := "ASSIGN_NODE"

def FUNCTION_DEFENITION_NODE : String := "FUNCTION_DEFENITION_NODE"

def INT_OBJ : String := "INT_OBJ"

def FLOAT_OBJ : String := "FLOAT_OBJ"

def IDENTIFIER_OBJ : String := "IDENTIFIER_OBJ"

def UNIT_OBJ : String := "UNIT_OBJ"

def ARRAY_OBJ : String := "ARRAY_OBJ"

def FUNCTION_CALL_OBJ : String := "FUNCTION_CALL_OBJ"

def STRING_OBJ : String := "STRING_OBJ"

def PROGRAM_OBJ : String := "PROGRAM_OBJ"

def BIN_OP_OBJ : String := "BIN_OP_OBJ"

def UNARY_OP_OBJ : String := "UNARY_OP_OBJ"

end lexer

/-- Token, from src/lexer/token.go lines 5-8: a kind tag and a literal. -/
structure Token where
  type : String
  literal : String
deriving DecidableEq

/-- AST node, the closed set of parser.Node variants built by the parser
(ProgramNode, IdentifierNode, IntNode, FloatNode, StringNode, UnitNode,
BinOpNode, UnaryOpNode, FunctionCallNode, ArrayNode, AssignNode,
FunctionDefenitionNode, ErrorNode).  FunctionCallNode.Parameters and
FunctionDefenitionNode.Consequence are ProgramNode in Go; they are carried
here as bare node lists and rewrapped with Node.program where the Go code
passes the ProgramNode to Eval. -/
inductive Node where
  | program (nodes : List Node)
  | identifier (name : String)
  | int (value : Int)
  | float (value : Rat)
  | str (value : String)
  | unit (value : Node) (unitName : String)
  | binOp (left : Node) (operation : String) (right : Node)
  | unaryOp (operation : String) (right : Node)
  | functionCall (identifier : String) (parameters : List Node)
  | array (nodes : List Node)
  | assign (identifier : String) (expression : Node)
  | functionDef (identifier : String) (parameters : List Node) (consequence : List Node)
  | errorNode

/-- Node.Type() as used by the evaluator (the *_NODE constants).  ErrorNode
is not given a Type() in src/; any tag distinct from the others is
behaviourally equivalent for the embedded code, which only compares
against IDENTIFIER_NODE. -/
def Node.nodeType : Node → String
  | .program _ => lexer.PROGRAM_NODE
  | .identifier _ => lexer.IDENTIFIER_NODE
  | .int _ => lexer.INT_NODE
  | .float _ => lexer.FLOAT_NODE
  | .str _ => lexer.STRING_NODE
  | .unit _ _ => lexer.UNIT_NODE
  | .binOp _ _ _ => lexer.BIN_OP_NODE
  | .unaryOp _ _ => lexer.UNARY_OP_NODE
  | .functionCall _ _ => lexer.FUNCTION_CALL_NODE
  | .array _ => lexer.ARRAY_NODE
  | .assign _ _ => lexer.ASSIGN_NODE
  | .functionDef _ _ _ => lexer.FUNCTION_DEFENITION_NODE
  | .errorNode => "ERROR_NODE"

/-- The field access node.(*parser.IdentifierNode).Identifier, guarded in the
source by a Type() == IDENTIFIER_NODE check. -/
def Node.identName : Node → String
  | .identifier s => s
  | _ => ""

/-- Runtime value (the evaluator Object variants: Integer, Float, Unit,
String, Program, Nil, Error).  Object.null models a nil Go interface value,
the zero value read from a map of Objects at a missing key. -/
inductive Object where
  | integer (value : Int)
  | float (value : Rat)
  | unit (value : Rat) (unitName : String)
  | str (value : String)
  | program (objects : List Object)
  | nil
  | error
  | null

/-- Object.Type() tags, from the *_OBJ constants.  Nil and Error types are
not visible in src/; tags distinct from the numeric and string tags are
behaviourally equivalent for the embedded code.  Calling Type() on a nil
interface would panic in Go; the embedded code never reaches that call. -/
def Object.typeStr : Object → String
  | .integer _ => lexer.INT_OBJ
  | .float _ => lexer.FLOAT_OBJ
  | .unit _ _ => lexer.UNIT_OBJ
  | .str _ => lexer.STRING_OBJ
  | .program _ => lexer.PROGRAM_OBJ
  | .nil => lexer.NIL
  | .error => lexer.ERROR
  | .null => "NIL_INTERFACE"

/-- Inspect() float64: the numeric magnitude of a value.  The source only
calls Inspect on Number values (Integer, Float, Unit); the default 0 for
other variants is never observed by the embedded code paths. -/
def Object.inspect : Object → Rat
  | .integer n => (n : Rat)
  | .float x => x
  | .unit v _ => v
  | _ => 0

/-- Membership test for the Number interface (Integer, Float, Unit). -/
def Object.isNumber : Object → Bool
  | .integer _ => true
  | .float _ => true
  | .unit _ _ => true
  | _ => false

/-- A number that is not a UnitValue (plain Integer or Float). -/
def Object.isPlainNumber : Object → Bool
  | .integer _ => true
  | .float _ => true
  | _ => false

/-- The unit name carried by a value, if any. -/
def Object.unitTag : Object → Option String
  | .unit _ u => some u
  | _ => none

/-- Periodic-table record: the three fields the evaluator reads from the
untyped element maps (symbol, name, atomic_mass). -/
structure Element where
  symbol : String
  name : String
  atomic_mass : Rat
deriving DecidableEq

/-- Stored user function definition: the Parameters and Consequence fields
of the *parser.FunctionDefenitionNode registered in the functions map. -/
structure FuncDef where
  params : List Node
  body : List Node

/-- Environment: variables, functions, constants maps and the periodic
table.  Go maps are association lists here; a nil Go map that is only ever
read behaves like an empty list, except the periodic table, whose nil case
is observable (lookupElements type-asserts on it and panics), hence the
Option. -/
structure Environment where
  Variables : List (String × Object)
  Functions : List (String × FuncDef)
  Constants : List (String × Object)
  PeriodicTable : Option (List Element)

/-- Failure outcomes: a Go error with its message, a Go runtime panic, a
call into an unmodelled builtin body, or fuel exhaustion of the embedding
(not a Go behaviour). -/
inductive Failure where
  | err (msg : String)
  | panicked (msg : String)
  | builtinCall (name : String)
  | fuel
deriving DecidableEq

/-! ## Association-list map operations. -/

/-- Map lookup m[k] returning ok-flag semantics (value, present). -/
def lookupAssoc (l : List (String × α)) (k : String) : Option α :=
  match l.find? (fun p => p.1 = k) with
  | some p => some p.2
  | none => none

/-- Map read m[k] without the ok flag: a missing key yields the zero value,
which for an interface type is nil. -/
def lookupAssocD (l : List (String × Object)) (k : String) : Object :=
  match lookupAssoc l k with
  | some v => v
  | none => Object.null

/-- Map write m[k] = v: overwrite the binding if present, else append. -/
def insertAssoc (l : List (String × α)) (k : String) (v : α) : List (String × α) :=
  match l with
  | [] => [(k, v)]
  | p :: rest => if p.1 = k then (k, v) :: rest else p :: insertAssoc rest k v

/-! ## Numeric helpers, from src/lexer/token.go lines 418-466. -/

/-- boolToInt, lines 420-426. -/
def boolToInt (value : Prop) [Decidable value] : Int :=
  if value then 1 else 0

/-- Rounding of math.Round: to the nearest integer, half away from zero. -/
def goRound (x : Rat) : Int :=
  if 0 ≤ x then ⌊x + 1 / 2⌋ else ⌈x - 1 / 2⌉

/-- Magnitude part of the 5-decimal rounding step of formatFloat:
math.Round(float * 100000) / 100000. -/
def roundTo5 (x : Rat) : Rat :=
  ((goRound (x * 100000) : Int) : Rat) / 100000

/-- formatFloat, lines 435-441: an integral value becomes an Integer (the
Go test float64(int(float)) == float holds exactly when the rational has
denominator 1), anything else becomes a Float rounded to 5 decimals. -/
def formatFloat (float : Rat) : Object :=
  if float.den = 1 then Object.integer float.num
  else Object.float (roundTo5 float)

/-- Truncation toward zero, the float64 to int conversion direction used by
IEEE fmod. -/
def truncRat (x : Rat) : Int :=
  if 0 ≤ x then ⌊x⌋ else ⌈x⌉

/-- Rational model of math.Pow: exact for integer exponents; a fractional
exponent (an irrational float power, never exercised by any theorem here)
is modelled as 0. -/
def goPow (x y : Rat) : Rat :=
  if y.den = 1 then x ^ y.num else 0

/-- Rational model of math.Mod (IEEE fmod): the sign follows the dividend.
A zero divisor is NaN in Go; modelled as 0 (not exercised by any
theorem). -/
def goFmod (x y : Rat) : Rat :=
  if y = 0 then 0 else x - y * ((truncRat (x / y) : Int) : Rat)

/-- binaryOperations, lines 387-416.  An operation string outside the
switch leaves the zero-initialised result 0.  Rational division is total
(x / 0 = 0) where IEEE would give an infinity; no theorem relies on the
divisor-zero case. -/
def binaryOperations (left right : Rat) (operation : String) : Rat :=
  if operation = lexer.ADD then left + right
  else if operation = lexer.SUB then left - right
  else if operation = lexer.DIV then left / right
  else if operation = lexer.MUL then left * right
  else if operation = lexer.POW then goPow left right
  else if operation = lexer.MOD then goFmod left right
  else if operation = lexer.EE then ((boolToInt (left = right) : Int) : Rat)
  else if operation = lexer.NE then ((boolToInt (left ≠ right) : Int) : Rat)
  else if operation = lexer.LT then ((boolToInt (left < right) : Int) : Rat)
  else if operation = lexer.LTE then ((boolToInt (left ≤ right) : Int) : Rat)
  else if operation = lexer.GT then ((boolToInt (left > right) : Int) : Rat)
  else if operation = lexer.GTE then ((boolToInt (left ≥ right) : Int) : Rat)
  else 0

/-! ## Unit conversion.

Modelled from the spec: the conversion registry (go-units) is an external
collaborator (spec section 6) whose sources are not in src/.  A registry is
a list of unit descriptors; Find matches by name; converting between units
of one dimension multiplies by the ratio of their factors, and between
units of different dimensions MustConvertFloat panics (conversion failure),
matching the find/convert contract of section 6. -/
structure UnitDef where
  name : String
  dim : String
  factor : Rat
deriving DecidableEq

/-- Registry lookup units.Find. -/
def findUnit (reg : List UnitDef) (n : String) : Option UnitDef :=
  reg.find? (fun u => u.name = n)

/-- Modelled from the spec: units.MustConvertFloat, which panics when no
conversion path exists. -/
def mustConvertFloat (u : Rat) (fromU toU : UnitDef) : Except Failure Rat :=
  if fromU.dim = toU.dim then Except.ok (u * fromU.factor / toU.factor)
  else Except.error (Failure.panicked "MustConvertFloat: failed to convert")

/-- convert, src/lexer/token.go lines 450-466: identical unit names
short-circuit before any registry lookup; otherwise both units must be
found and the converted magnitude is re-rounded through formatFloat. -/
def convert (reg : List UnitDef) (u : Rat) (fromName toName : String) : Except Failure Object :=
  if fromName = toName then Except.ok (Object.unit u fromName)
  else
    match findUnit reg fromName with
    | none => Except.error (Failure.err ("ConversionError: Unit " ++ fromName ++ " not defined"))
    | some leftUnit =>
      match findUnit reg toName with
      | none => Except.error (Failure.err ("ConversionError: Unit " ++ toName ++ " not defined"))
      | some rightUnit =>
        match mustConvertFloat u leftUnit rightUnit with
        | Except.ok c => Except.ok (Object.unit (formatFloat c).inspect toName)
        | Except.error e => Except.error e

/-! ## Fuzzy similarity, src/lexer/token.go lines 481-494.

The Levenshtein metric comes from the external strutil library
(metrics.NewLevenshtein with unit insert, delete and replace costs;
Similarity is 1 - distance / max(rune length)).  Identifiers are ASCII in
this language, where Go byte indexing, Go byte length and rune length all
agree with the Char-list view used here. -/

/-- Levenshtein distance with unit costs. -/
def levDist : List Char → List Char → Nat
  | [], bs => bs.length
  | a :: as, [] => (a :: as).length
  | a :: as, b :: bs =>
    if a = b then levDist as bs
    else 1 + min (levDist as bs) (min (levDist (a :: as) bs) (levDist as (b :: bs)))
termination_by as bs => as.length + bs.length

/-- Length of the longest shared prefix, the loop of lines 484-490. -/
def commonPrefixLen : List Char → List Char → Nat
  | a :: as, b :: bs => if a = b then commonPrefixLen as bs + 1 else 0
  | _, _ => 0

/-- strutil.Similarity with the Levenshtein metric: 1 - distance / maxLen,
and 1 for two empty strings. -/
def levSimilarity (a b : String) : Rat :=
  let maxLen := max a.data.length b.data.length
  if maxLen = 0 then 1
  else 1 - ((levDist a.data b.data : Int) : Rat) / (maxLen : Rat)

/-- similarity, lines 481-494.  consecutiveCertainty is i / len(a) with Go
integer division (both operands are int), modelled by Nat division; the
quotient is 0 unless i = len(a).  Go panics when len(a) = 0 (integer
division by zero); the Nat quotient 0 there is never relied on, every
theorem about similarity assumes a nonempty queried name. -/
def similarity (a b : String) : Rat :=
  let i := commonPrefixLen a.data b.data
  let consecutiveCertainty : Nat := i / a.data.length
  ((consecutiveCertainty : Int) : Rat) * (1 / 2) + levSimilarity a b * (1 / 2)

/-- One step of the maximum-similarity scan of Eval's IdentifierNode case,
lines 186-192: strict improvement over the running maximum. -/
def simStep (a : String) (acc : String × Rat) (p : String × Object) : String × Rat :=
  if similarity a p.1 > acc.2 then (p.1, similarity a p.1) else acc

/-- The maximum-similarity scan, lines 183-192, initialised to the empty
name and score 0. -/
def maxSimFold (a : String) (vars : List (String × Object)) : String × Rat :=
  vars.foldl (simStep a) ("", 0)

/-- strings.EqualFold restricted to ASCII case folding, sufficient for the
element names this interpreter compares. -/
def equalFold (a b : String) : Bool :=
  a.toLower = b.toLower

/-- lookupElements, lines 468-479: scan the elements in order, matching
symbol exactly or name case-insensitively.  A nil periodic table panics in
Go at the type assertion periodicTable["elements"].([]interface) because
reading the nil map yields a nil interface value. -/
def lookupElements (elementIdentifier : String) : Option (List Element) → Except Failure Element
  | none => Except.error (Failure.panicked "interface conversion: interface is nil")
  | some elements =>
    match elements.find? (fun e => e.symbol = elementIdentifier || equalFold e.name elementIdentifier) with
    | some e => Except.ok e
    | none => Except.error (Failure.err "EvaluationError: Identifier undefined")

/-! ## Parser embedding, src/unnamed/part_000 (package parser).

The Go Parser mutates its position in place and keeps returning (Node,
error); an error return leaves the position wherever the failure happened,
and two call sites discard the error and keep parsing from that position.
The embedding therefore returns a pair of the Except outcome and the
parser state.  Go panics (advancing past the end of the token slice) and
fuel exhaustion are never swallowed, matching Go where a panic unwinds
past every if err check. -/

structure PState where
  tokens : List Token
  position : Nat

/-- The current token p.token (the position is always in range when the
embedded code reads it; advancing out of range is a panic outcome
beforehand). -/
def PState.tok (st : PState) : Token :=
  st.tokens.getD st.position ⟨lexer.EOF, ""⟩

/-- peekToken, part_000 lines 28-33. -/
def PState.peekToken (st : PState) : Token :=
  if st.position + 1 ≥ st.tokens.length then ⟨lexer.EOF, ""⟩
  else st.tokens.getD (st.position + 1) ⟨lexer.EOF, ""⟩

/-- Parser results: the outcome plus the state the parser was left in. -/
abbrev PRes (α : Type) : Type := Except Failure α × PState

/-- advance, lines 22-26: moving past the end of the token slice is an
index-out-of-range panic in Go. -/
def withAdvance (st : PState) (k : PState → PRes α) : PRes α :=
  if st.position + 1 < st.tokens.length then k ⟨st.tokens, st.position + 1⟩
  else (Except.error (Failure.panicked "index out of range: advance"), st)

/-- Sequencing of parser steps: stop at the first error, keeping its
state. -/
def pbind (r : PRes α) (f : α → PState → PRes β) : PRes β :=
  match r with
  | (Except.ok a, st) => f a st
  | (Except.error e, st) => (Except.error e, st)

/-- preference, lines 281-304: the binding-power table, -1 for unknown
token types. -/
def preference (tokenType : String) : Int :=
  if tokenType = lexer.IN then 5
  else if tokenType = lexer.ARROW then 5
  else if tokenType = lexer.EE then 10
  else if tokenType = lexer.NE then 10
  else if tokenType = lexer.GT then 10
  else if tokenType = lexer.GTE then 10
  else if tokenType = lexer.LT then 10
  else if tokenType = lexer.LTE then 10
  else if tokenType = lexer.MOD then 15
  else if tokenType = lexer.ADD then 20
  else if tokenType = lexer.SUB then 20
  else if tokenType = lexer.MUL then 30
  else if tokenType = lexer.DIV then 30
  else if tokenType = lexer.POW then 40
  else if tokenType = lexer.LPAREN then 0
  else -1

/-- The infix operator whitelist of parseInfix, lines 240-242. -/
def infixOperators : List String :=
  [lexer.EE, lexer.NE, lexer.LT, lexer.GT, lexer.LTE, lexer.GTE, lexer.ADD,
   lexer.SUB, lexer.MUL, lexer.DIV, lexer.MOD, lexer.POW, lexer.IN, lexer.ARROW]

/-- Modelled from the spec: strconv.Atoi on the digit-run INT literals the
tokenizer (section 4.1, not in src/) emits. -/
def parseIntLit (s : String) : Except Failure Int :=
  match s.toNat? with
  | some n => Except.ok (n : Int)
  | none => Except.error (Failure.err "SyntaxError: Atoi")

/-- Modelled from the spec: strconv.ParseFloat on the digits.digits FLOAT
literals the tokenizer emits (a unary minus is its own SUB token, so the
literal is unsigned). -/
def parseFloatLit (s : String) : Except Failure Rat :=
  match s.splitOn "." with
  | [w] =>
    match w.toNat? with
    | some n => Except.ok (n : Rat)
    | none => Except.error (Failure.err "SyntaxError: ParseFloat")
  | [w, f] =>
    match w.toNat?, f.toNat? with
    | some n, some fr => Except.ok ((n : Rat) + (fr : Rat) / ((10 : Rat) ^ f.length))
    | _, _ => Except.error (Failure.err "SyntaxError: ParseFloat")
  | _ => Except.error (Failure.err "SyntaxError: ParseFloat")

mutual

/-- parseExpr, lines 120-134: a prefix parse followed by the infix loop. -/
def parseExpr (fuel : Nat) (rbp : Int) (st : PState) : PRes Node :=
  match fuel with
  | 0 => (Except.error Failure.fuel, st)
  | fuel + 1 =>
    pbind (parsePrefixExpr fuel st) fun left st1 =>
    parseExprLoop fuel rbp left st1

termination_by structural fuel

/-- The infix loop of parseExpr: while the peeked token is neither EOF nor
a semicolon and the current token binds at least as tightly as rbp, fold
another infix operator into the left operand. -/
def parseExprLoop (fuel : Nat) (rbp : Int) (left : Node) (st : PState) : PRes Node :=
  match fuel with
  | 0 => (Except.error Failure.fuel, st)
  | fuel + 1 =>
    if st.peekToken.type ≠ lexer.EOF ∧ st.peekToken.type ≠ lexer.SEMICOLON ∧
        preference st.tok.type ≥ rbp then
      pbind (parseInfixOp fuel left st.tok.type st) fun left2 st2 =>
      parseExprLoop fuel rbp left2 st2
    else (Except.ok left, st)

termination_by structural fuel

/-- parseInfix, lines 239-256: whitelist check, advance, parse the right
operand one binding power tighter, and fold; an ARROW operator is
normalised to IN. -/
def parseInfixOp (fuel : Nat) (left : Node) (operation : String) (st : PState) : PRes Node :=
  match fuel with
  | 0 => (Except.error Failure.fuel, st)
  | fuel + 1 =>
    if infixOperators.contains st.tok.type then
      withAdvance st fun st1 =>
      pbind (parseExpr fuel (preference operation + 1) st1) fun right st2 =>
      (Except.ok (Node.binOp left (if operation = lexer.ARROW then lexer.IN else operation) right), st2)
    else
      (Except.error (Failure.err ("SyntaxError: parseInfix() unsupported opperator:" ++ st.tok.literal)), st)

termination_by structural fuel

/-- parsePrefix, lines 136-237.  The IDENTIFIER function-call arm discards
a parseParameters Go error and yields an ErrorNode with a nil error
(lines 188-191); panics and fuel exhaustion still propagate. -/
def parsePrefixExpr (fuel : Nat) (st : PState) : PRes Node :=
  match fuel with
  | 0 => (Except.error Failure.fuel, st)
  | fuel + 1 =>
    if st.tok.type = lexer.TILDE then
      withAdvance st fun st1 =>
      pbind (parsePrefixExpr fuel st1) fun expression st2 =>
      (Except.ok (Node.unaryOp lexer.TILDE expression), st2)
    else if st.tok.type = lexer.NOT then
      withAdvance st fun st1 =>
      pbind (parsePrefixExpr fuel st1) fun expression st2 =>
      (Except.ok (Node.unaryOp lexer.NOT expression), st2)
    else if st.tok.type = lexer.SUB then
      withAdvance st fun st1 =>
      pbind (parsePrefixExpr fuel st1) fun expression st2 =>
      (Except.ok (Node.unaryOp lexer.SUB expression), st2)
    else if st.tok.type = lexer.LPAREN then
      withAdvance st fun st1 =>
      pbind (parseExpr fuel (preference lexer.LPAREN) st1) fun expression st2 =>
      withAdvance st2 fun st3 =>
      if st3.tok.type = lexer.IDENTIFIER then
        withAdvance st3 fun st4 =>
        (Except.ok (Node.unit expression st3.tok.literal), st4)
      else (Except.ok expression, st3)
    else if st.tok.type = lexer.LSQUARE then
      pbind (parseParameters fuel lexer.RSQUARE st) fun nodes st2 =>
      withAdvance st2 fun st3 =>
      (Except.ok (Node.array nodes), st3)
    else if st.tok.type = lexer.IDENTIFIER then
      let identifier := st.tok.literal
      withAdvance st fun st1 =>
      if st1.tok.type = lexer.LPAREN then
        match parseParameters fuel lexer.RPAREN st1 with
        | (Except.error (Failure.err _), st2) => (Except.ok Node.errorNode, st2)
        | (Except.error e, st2) => (Except.error e, st2)
        | (Except.ok params, st2) =>
          withAdvance st2 fun st3 =>
          (Except.ok (Node.functionCall identifier params), st3)
      else if st1.tok.type = lexer.IDENTIFIER then
        withAdvance st1 fun st2 =>
        (Except.ok (Node.unit (Node.identifier identifier) st1.tok.literal), st2)
      else (Except.ok (Node.identifier identifier), st1)
    else if st.tok.type = lexer.INT then
      match parseIntLit st.tok.literal with
      | Except.error e => (Except.error e, st)
      | Except.ok value =>
        withAdvance st fun st1 =>
        if st1.tok.type = lexer.IDENTIFIER then
          withAdvance st1 fun st2 =>
          (Except.ok (Node.unit (Node.int value) st1.tok.literal), st2)
        else (Except.ok (Node.int value), st1)
    else if st.tok.type = lexer.FLOAT then
      match parseFloatLit st.tok.literal with
      | Except.error e => (Except.error e, st)
      | Except.ok value =>
        withAdvance st fun st1 =>
        if st1.tok.type = lexer.IDENTIFIER then
          withAdvance st1 fun st2 =>
          (Except.ok (Node.unit (Node.float value) st1.tok.literal), st2)
        else (Except.ok (Node.float value), st1)
    else if st.tok.type = lexer.STRING then
      withAdvance st fun st1 =>
      (Except.ok (Node.str st.tok.literal), st1)
    else
      (Except.error (Failure.err ("SyntaxError: parsePrefix() unsupported prefix:" ++ st.tok.literal)), st)

termination_by structural fuel

/-- parseParameters, lines 258-279: advance past the opener, return an
empty list on an immediate RPAREN (hardcoded even for an RSQUARE
terminator), else run the collection loop. -/
def parseParameters (fuel : Nat) (terminate : String) (st : PState) : PRes (List Node) :=
  match fuel with
  | 0 => (Except.error Failure.fuel, st)
  | fuel + 1 =>
    withAdvance st fun st1 =>
    if st1.tok.type = lexer.RPAREN then (Except.ok [], st1)
    else parseParamsLoop fuel terminate [] st1

termination_by structural fuel

/-- The collection loop of parseParameters: until the terminator, an EOF or
semicolon is the unclosed-parenthesis error, a comma is skipped, anything
else is an expression parsed at minimum binding power. -/
def parseParamsLoop (fuel : Nat) (terminate : String) (parameters : List Node) (st : PState) : PRes (List Node) :=
  match fuel with
  | 0 => (Except.error Failure.fuel, st)
  | fuel + 1 =>
    if st.tok.type = terminate then (Except.ok parameters, st)
    else if st.tok.type = lexer.EOF ∨ st.tok.type = lexer.SEMICOLON then
      (Except.error (Failure.err "SyntaxError: Unclosed parenthesis parseParameters()"), st)
    else if st.tok.type ≠ lexer.COMMA then
      pbind (parseExpr fuel 0 st) fun param st2 =>
      parseParamsLoop fuel terminate (parameters ++ [param]) st2
    else
      withAdvance st fun st1 =>
      parseParamsLoop fuel terminate parameters st1

termination_by structural fuel

/-- parseExpression, lines 50-72: assignment on IDENTIFIER EQ, function
definition on DEFINE, else a Pratt expression at minimum binding power. -/
def parseExpression (fuel : Nat) (st : PState) : PRes Node :=
  match fuel with
  | 0 => (Except.error Failure.fuel, st)
  | fuel + 1 =>
    if st.tok.type = lexer.IDENTIFIER ∧ st.peekToken.type = lexer.EQ then
      parseAssignment fuel st
    else if st.tok.type = lexer.DEFINE then
      parseFunctionDefenition fuel st
    else
      parseExpr fuel 0 st

termination_by structural fuel

/-- parseAssignment, lines 109-118. -/
def parseAssignment (fuel : Nat) (st : PState) : PRes Node :=
  match fuel with
  | 0 => (Except.error Failure.fuel, st)
  | fuel + 1 =>
    let identifier := st.tok.literal
    withAdvance st fun st1 =>
    withAdvance st1 fun st2 =>
    pbind (parseExpr fuel 0 st2) fun expr st3 =>
    (Except.ok (Node.assign identifier expr), st3)

/-- parseFunctionDefenition, lines 74-107: name, optional parenthesised
parameter list, mandatory ARROW, then a statement sequence consumed to end
of input.  A Go error inside the body loop is discarded and the whole
definition becomes an ErrorNode with a nil error (line 100). -/
def parseFunctionDefenition (fuel : Nat) (st : PState) : PRes Node :=
  match fuel with
  | 0 => (Except.error Failure.fuel, st)
  | fuel + 1 =>
    withAdvance st fun st1 =>
    let identifer := st1.tok.literal
    withAdvance st1 fun st2 =>
    pbind
      (if st2.tok.type = lexer.LPAREN then
        pbind (parseParameters fuel lexer.RPAREN st2) fun params st3 =>
        withAdvance st3 fun st4 =>
        (Except.ok params, st4)
      else (Except.ok [], st2))
      fun params st5 =>
    if st5.tok.type ≠ lexer.ARROW then
      (Except.error (Failure.err "SyntaxError: expected => while parsing functionDefenition"), st5)
    else
      withAdvance st5 fun st6 =>
      match parseFnBody fuel [] st6 with
      | (Except.ok consequence, st7) => (Except.ok (Node.functionDef identifer params consequence), st7)
      | (Except.error (Failure.err _), st7) => (Except.ok Node.errorNode, st7)
      | (Except.error e, st7) => (Except.error e, st7)

termination_by structural fuel

/-- The body loop of parseFunctionDefenition, lines 93-103: until EOF, skip
a semicolon and parse one statement. -/
def parseFnBody (fuel : Nat) (consequence : List Node) (st : PState) : PRes (List Node) :=
  match fuel with
  | 0 => (Except.error Failure.fuel, st)
  | fuel + 1 =>
    if st.tok.type = lexer.EOF then (Except.ok consequence, st)
    else
      pbind
        (if st.tok.type = lexer.SEMICOLON then
          withAdvance st fun st1 => (Except.ok PUnit.unit, st1)
        else (Except.ok PUnit.unit, st))
        fun _ st1 =>
      pbind (parseExpression fuel st1) fun expr st2 =>
      parseFnBody fuel (consequence ++ [expr]) st2

termination_by structural fuel

end

/-- The loop of Parse, lines 35-48: until EOF, skip a semicolon and parse
one top-level statement; the first error aborts with no AST. -/
def parseProgramLoop (fuel : Nat) (ast : List Node) (st : PState) : PRes (List Node) :=
  match fuel with
  | 0 => (Except.error Failure.fuel, st)
  | fuel + 1 =>
    if st.tok.type = lexer.EOF then (Except.ok ast, st)
    else
      pbind
        (if st.tok.type = lexer.SEMICOLON then
          withAdvance st fun st1 => (Except.ok PUnit.unit, st1)
        else (Except.ok PUnit.unit, st))
        fun _ st1 =>
      pbind (parseExpression fuel st1) fun node st2 =>
      parseProgramLoop fuel (ast ++ [node]) st2

/-- Parse, lines 35-48, on a parser built by NewParser (lines 17-20, which
indexes tokens[0] and so panics on an empty token slice). -/
def parseTokens (fuel : Nat) (tokens : List Token) : Except Failure Node :=
  if tokens.isEmpty then Except.error (Failure.panicked "index out of range: NewParser")
  else
    match parseProgramLoop fuel [] ⟨tokens, 0⟩ with
    | (Except.ok nodes, _) => Except.ok (Node.program nodes)
    | (Except.error e, _) => Except.error e

/-! ## Evaluator embedding, src/lexer/token.go lines 117-448 (package
evaluator).

Eval(node, environment) returns (Object, error) in Go; the Environment
struct is passed by value but its maps are shared references, so map
writes are visible to the caller.  The embedding threads the environment
and returns it with the value.  On an error Go's map mutations up to the
failure would persist in the caller's maps; every error here is terminal
for the claims concerned, so the embedding drops the environment on
error. -/

/-- isNumberObject, lines 428-433.  The Go message interpolates
object.String(), whose definition is not in src/; only the error kind is
modelled. -/
def isNumberObject (object : Object) : Except Failure Object :=
  if object.isNumber then Except.ok object
  else Except.error (Failure.err "EvaluatorError: value is not type Number")

/-- evalUnarySub, lines 270-279. -/
def evalUnarySub (node : Object) : Except Failure Object :=
  match node with
  | Object.integer n => Except.ok (Object.integer (-n))
  | Object.float x => Except.ok (Object.float (-x))
  | _ => Except.error (Failure.err ("UnaryOperationError: Cannot negate type " ++ node.typeStr))

/-- evalUnaryRound, lines 281-290. -/
def evalUnaryRound (node : Object) : Except Failure Object :=
  match node with
  | Object.integer n => Except.ok (Object.integer n)
  | Object.float x => Except.ok (Object.integer (goRound x))
  | _ => Except.error (Failure.err ("RoundingError: cannout round type " ++ node.typeStr))

/-- evalUnaryNot, lines 292-305: Integer 0 and the empty string negate to
Integer 1, everything else to Integer 0. -/
def evalUnaryNot (node : Object) : Object :=
  match node with
  | Object.integer n => if n = 0 then Object.integer 1 else Object.integer 0
  | Object.str s => if s = "" then Object.integer 1 else Object.integer 0
  | _ => Object.integer 0

/-- evalStringInfix, lines 351-357: concatenation only. -/
def evalStringInfixOp (left right : String) (operation : String) : Except Failure Object :=
  if operation = lexer.ADD then Except.ok (Object.str (left ++ right))
  else Except.error (Failure.err ("BinaryOperationError: Unsupported Operation Between Strings " ++ operation))

/-- evalNumberInfix, lines 359-385: when both operands are units the left
magnitude is converted into the right unit first and the result keeps the
right unit; with exactly one unit the result keeps that unit; with none
the formatted number is returned bare. -/
def evalNumberInfixOp (reg : List UnitDef) (left right : Object) (operation : String) :
    Except Failure Object :=
  match left, right with
  | Object.unit lv lu, Object.unit rv ru =>
    match convert reg lv lu ru with
    | Except.error e => Except.error e
    | Except.ok convertedLeft =>
      let value := formatFloat (binaryOperations convertedLeft.inspect rv operation)
      Except.ok (Object.unit value.inspect ru)
  | Object.unit lv lu, _ =>
    let value := formatFloat (binaryOperations lv right.inspect operation)
    Except.ok (Object.unit value.inspect lu)
  | _, Object.unit rv ru =>
    let value := formatFloat (binaryOperations left.inspect rv operation)
    Except.ok (Object.unit value.inspect ru)
  | _, _ =>
    Except.ok (formatFloat (binaryOperations left.inspect right.inspect operation))

/-- Eval's IdentifierNode case, lines 166-195: constants, then the element
table (whose nil case panics inside lookupElements), then an exact
variable match; otherwise the undefined-variable error on an empty
variables map, else the similarity scan and the map read
Variables[maxIdentifier], which yields the nil interface zero value when
the scan never improved on the initial empty name. -/
def evalIdentifier (name : String) (environment : Environment) :
    Except Failure (Object × Environment) :=
  match lookupAssoc environment.Constants name with
  | some value => Except.ok (value, environment)
  | none =>
    match lookupElements name environment.PeriodicTable with
    | Except.ok element => Except.ok (formatFloat element.atomic_mass, environment)
    | Except.error (Failure.err _) =>
      match lookupAssoc environment.Variables name with
      | some value => Except.ok (value, environment)
      | none =>
        if environment.Variables.length < 1 then
          Except.error (Failure.err ("VarAccessError: Undefined variable identifier " ++ name))
        else
          Except.ok (lookupAssocD environment.Variables (maxSimFold name environment.Variables).1,
            environment)
    | Except.error e => Except.error e

/-- The fixed builtin table of evalFunctionCall, lines 211-216. -/
def builtins : List String :=
  ["frac", "print", "root", "lookup"]

/-- The environment literal of evalFunctionCall line 231: fresh empty
variables and functions maps, Constants and PeriodicTable left at their
zero values (nil). -/
def freshCallEnv : Environment :=
  { Variables := [], Functions := [], Constants := [], PeriodicTable := none }

mutual

/-- Eval, lines 124-208.  The final catch-all (ArrayNode and ErrorNode
reach it) returns an Error object with a nil error, line 207. -/
def Eval (reg : List UnitDef) (fuel : Nat) (node : Node) (environment : Environment) :
    Except Failure (Object × Environment) :=
  match fuel with
  | 0 => Except.error Failure.fuel
  | fuel + 1 =>
    match node with
    | Node.program nodes => evalProgramLoop reg fuel nodes [] environment
    | Node.unaryOp operation right => evalUnaryOp reg fuel operation right environment
    | Node.binOp left operation right => evalBinaryOp reg fuel left operation right environment
    | Node.unit inner u => do
      let (value, env1) ← Eval reg fuel inner environment
      match isNumberObject value with
      | Except.ok objectValue => Except.ok (Object.unit objectValue.inspect u, env1)
      | Except.error e => Except.error e
    | Node.assign identifier expression => do
      let (value, env1) ← Eval reg fuel expression environment
      Except.ok (Object.nil, { env1 with Variables := insertAssoc env1.Variables identifier value })
    | Node.functionCall identifier parameters =>
      evalFunctionCall reg fuel identifier parameters environment
    | Node.functionDef identifier parameters consequence =>
      Except.ok (Object.nil,
        { environment with
            Functions := insertAssoc environment.Functions identifier ⟨parameters, consequence⟩ })
    | Node.identifier name => evalIdentifier name environment
    | Node.int value => Except.ok (Object.integer value, environment)
    | Node.float value => Except.ok (Object.float value, environment)
    | Node.str value => Except.ok (Object.str value, environment)
    | _ => Except.ok (Object.error, environment)

termination_by structural fuel

/-- The ProgramNode loop of Eval, lines 126-135: statements evaluate in
order, results accumulate, the first error aborts. -/
def evalProgramLoop (reg : List UnitDef) (fuel : Nat) (nodes : List Node)
    (objects : List Object) (environment : Environment) :
    Except Failure (Object × Environment) :=
  match fuel with
  | 0 => Except.error Failure.fuel
  | fuel + 1 =>
    match nodes with
    | [] => Except.ok (Object.program objects, environment)
    | node :: rest => do
      let (result, env1) ← Eval reg fuel node environment
      evalProgramLoop reg fuel rest (objects ++ [result]) env1

termination_by structural fuel

/-- evalUnaryOp, lines 252-268. -/
def evalUnaryOp (reg : List UnitDef) (fuel : Nat) (operation : String) (right : Node)
    (environment : Environment) : Except Failure (Object × Environment) :=
  match fuel with
  | 0 => Except.error Failure.fuel
  | fuel + 1 => do
    let (result, env1) ← Eval reg fuel right environment
    if operation = lexer.SUB then
      match evalUnarySub result with
      | Except.ok o => Except.ok (o, env1)
      | Except.error e => Except.error e
    else if operation = lexer.NOT then
      Except.ok (evalUnaryNot result, env1)
    else if operation = lexer.TILDE then
      match evalUnaryRound result with
      | Except.ok o => Except.ok (o, env1)
      | Except.error e => Except.error e
    else
      Except.error (Failure.err ("UnaryOperationError: Unsupported " ++ operation ++ " Operation"))

termination_by structural fuel

/-- evalBinaryOp, lines 309-349: the left operand evaluates first; an IN
with an identifier right-hand side converts (a plain number no-op converts
into the target, a non-number falls through to the common dispatch); an IN
with any other right-hand side is the ConversionError. -/
def evalBinaryOp (reg : List UnitDef) (fuel : Nat) (left : Node) (operation : String)
    (right : Node) (environment : Environment) : Except Failure (Object × Environment) :=
  match fuel with
  | 0 => Except.error Failure.fuel
  | fuel + 1 => do
    let (leftObj, env1) ← Eval reg fuel left environment
    if operation = lexer.IN ∧ right.nodeType = lexer.IDENTIFIER_NODE then
      let toIdentifier := right.identName
      match leftObj with
      | Object.unit lv lu =>
        match convert reg lv lu toIdentifier with
        | Except.ok o => Except.ok (o, env1)
        | Except.error e => Except.error e
      | _ =>
        if leftObj.isNumber then
          match convert reg leftObj.inspect toIdentifier toIdentifier with
          | Except.ok o => Except.ok (o, env1)
          | Except.error e => Except.error e
        else evalBinCont reg fuel leftObj operation right env1
    else if operation = lexer.IN ∧ right.nodeType ≠ lexer.IDENTIFIER_NODE then
      Except.error (Failure.err
        ("ConversionError: IN cannot convert " ++ leftObj.typeStr ++ " and " ++ right.nodeType))
    else evalBinCont reg fuel leftObj operation right env1

termination_by structural fuel

/-- Continuation of evalBinaryOp past the IN special case: evaluate the
right operand and dispatch on the left operand's runtime type (lines
329-348). -/
def evalBinCont (reg : List UnitDef) (fuel : Nat) (leftObj : Object) (operation : String)
    (right : Node) (environment : Environment) : Except Failure (Object × Environment) :=
  match fuel with
  | 0 => Except.error Failure.fuel
  | fuel + 1 => do
    let (rightObj, env2) ← Eval reg fuel right environment
    if leftObj.isNumber then
      if rightObj.isNumber then
        match evalNumberInfixOp reg leftObj rightObj operation with
        | Except.ok o => Except.ok (o, env2)
        | Except.error e => Except.error e
      else
        Except.error (Failure.err
          ("BinaryOperationError: Unsupported Types: " ++ leftObj.typeStr ++ operation ++ rightObj.typeStr))
    else
      match leftObj, rightObj with
      | Object.str s, Object.str rs =>
        match evalStringInfixOp s rs operation with
        | Except.ok o => Except.ok (o, env2)
        | Except.error e => Except.error e
      | _, _ =>
        Except.error (Failure.err
          ("BinaryOperationError: Unsupported Types: " ++ leftObj.typeStr ++ operation ++ rightObj.typeStr))

termination_by structural fuel

/-- evalFunctionCall, lines 210-248.  A builtin name evaluates its argument
list in the caller's environment and then enters a function body that is
external glue outside src/ (spec section 6): the embedding marks that
entry with Failure.builtinCall so that no theorem depends on an unmodelled
body.  A user-defined call binds arguments through bindArgs into the fresh
environment of line 231, evaluates the body Program there, and returns the
last statement's value (an empty body panics indexing Objects[-1]). -/
def evalFunctionCall (reg : List UnitDef) (fuel : Nat) (identifier : String)
    (parameters : List Node) (environment : Environment) :
    Except Failure (Object × Environment) :=
  match fuel with
  | 0 => Except.error Failure.fuel
  | fuel + 1 =>
    if builtins.contains identifier then do
      let (_, _) ← Eval reg fuel (Node.program parameters) environment
      Except.error (Failure.builtinCall identifier)
    else
      match lookupAssoc environment.Functions identifier with
      | some functionDef => do
        let (env, envCaller) ←
          bindArgs reg fuel functionDef.params parameters 0 freshCallEnv environment
        let (result, _) ← Eval reg fuel (Node.program functionDef.body) env
        match result with
        | Object.program objects =>
          match objects.getLast? with
          | some o => Except.ok (o, envCaller)
          | none => Except.error (Failure.panicked "index out of range: empty function body")
        | _ => Except.error (Failure.panicked "interface conversion: not Program")
      | none =>
        Except.error (Failure.err
          ("FunctionCallError: Function with Identifer " ++ identifier ++ " is not defined"))

termination_by structural fuel

/-- The argument-binding loop of evalFunctionCall, lines 232-239: iterate
over the call-site argument nodes, read the positionally matching declared
parameter (an out-of-range index or a non-identifier parameter node is a
Go panic at the type assertion), evaluate the argument in the caller's
environment, and bind it in the callee environment.  Returns the callee
environment together with the caller environment after argument
evaluation. -/
def bindArgs (reg : List UnitDef) (fuel : Nat) (params : List Node) (args : List Node)
    (i : Nat) (env environment : Environment) : Except Failure (Environment × Environment) :=
  match fuel with
  | 0 => Except.error Failure.fuel
  | fuel + 1 =>
    match args with
    | [] => Except.ok (env, environment)
    | node :: rest =>
      match params[i]? with
      | none => Except.error (Failure.panicked "index out of range: Parameters")
      | some (Node.identifier identifer) => do
        let (result, env1) ← Eval reg fuel node environment
        bindArgs reg fuel params rest (i + 1)
          { env with Variables := insertAssoc env.Variables identifer result } env1
      | some _ => Except.error (Failure.panicked "interface conversion: not IdentifierNode")

termination_by structural fuel

end

/-! ## Concrete artifacts used by the theorems. -/

/-- Modelled from the spec: the token sequence the tokenizer (section 4.1,
not in src/) produces for the source define add(a, b) => a + b; add(2, 3). -/
def tokensDefineAdd : List Token :=
  [⟨lexer.DEFINE, "define"⟩, ⟨lexer.IDENTIFIER, "add"⟩, ⟨lexer.LPAREN, "("⟩,
   ⟨lexer.IDENTIFIER, "a"⟩, ⟨lexer.COMMA, ","⟩, ⟨lexer.IDENTIFIER, "b"⟩,
   ⟨lexer.RPAREN, ")"⟩, ⟨lexer.ARROW, "=>"⟩, ⟨lexer.IDENTIFIER, "a"⟩,
   ⟨lexer.ADD, "+"⟩, ⟨lexer.IDENTIFIER, "b"⟩, ⟨lexer.SEMICOLON, ";"⟩,
   ⟨lexer.IDENTIFIER, "add"⟩, ⟨lexer.LPAREN, "("⟩, ⟨lexer.INT, "2"⟩,
   ⟨lexer.COMMA, ","⟩, ⟨lexer.INT, "3"⟩, ⟨lexer.RPAREN, ")"⟩, ⟨lexer.EOF, ""⟩]

/-- A top-level environment as the driver builds it: no variables,
functions or pre-seeded constants, and a loaded (here empty) periodic
table. -/
def emptyTopEnv : Environment :=
  { Variables := [], Functions := [], Constants := [], PeriodicTable := some [] }

/-- The AST the embedded parser produces for tokensDefineAdd: a single
function definition whose body holds both remaining statements. -/
def astDefineAdd : Node :=
  Node.program
    [Node.functionDef "add" [Node.identifier "a", Node.identifier "b"]
      [Node.binOp (Node.identifier "a") lexer.ADD (Node.identifier "b"),
       Node.functionCall "add" [Node.int 2, Node.int 3]]]

/-- Parse and evaluate the define add source end to end in an environment
with no prior bindings, keeping the top-level value. -/
def runDefineAdd : Except Failure Object :=
  match parseTokens 30 tokensDefineAdd with
  | Except.ok ast =>
    match Eval [] 30 ast emptyTopEnv with
    | Except.ok (o, _) => Except.ok o
    | Except.error e => Except.error e
  | Except.error e => Except.error e

/-- A caller environment defining two functions, f calling g. -/
def envTwoFunctions : Environment :=
  { Variables := [],
    Functions := [("f", ⟨[], [Node.functionCall "g" []]⟩), ("g", ⟨[], [Node.int 1]⟩)],
    Constants := [], PeriodicTable := some [] }

/-- An environment with a single bound variable y. -/
def envOneVariable : Environment :=
  { Variables := [("y", Object.integer 1)], Functions := [], Constants := [],
    PeriodicTable := some [] }

/-- An environment with two bound variables x and y. -/
def envTwoVariables : Environment :=
  { Variables := [("x", Object.integer 5), ("y", Object.integer 7)], Functions := [],
    Constants := [], PeriodicTable := some [] }

/-- Modelled from the spec: tokens of the source f(2, 3 — a function-call
argument list never closed before end of input. -/
def tokensUnterminatedCall : List Token :=
  [⟨lexer.IDENTIFIER, "f"⟩, ⟨lexer.LPAREN, "("⟩, ⟨lexer.INT, "2"⟩, ⟨lexer.COMMA, ","⟩,
   ⟨lexer.INT, "3"⟩, ⟨lexer.EOF, ""⟩]

/-- Modelled from the spec: tokens of the source f(2 — a shorter unclosed
call argument list. -/
def tokensUnterminatedCallB : List Token :=
  [⟨lexer.IDENTIFIER, "f"⟩, ⟨lexer.LPAREN, "("⟩, ⟨lexer.INT, "2"⟩, ⟨lexer.EOF, ""⟩]

/-- Modelled from the spec: tokens of the source [2 — an array literal
never closed before end of input. -/
def tokensUnterminatedArray : List Token :=
  [⟨lexer.LSQUARE, "["⟩, ⟨lexer.INT, "2"⟩, ⟨lexer.EOF, ""⟩]

/-- Similarity score as the specification for claim C3 words it: 0.5 times
the shared-prefix length divided, as rationals, by the queried name's
length, plus 0.5 times the Levenshtein similarity.  Stated only to be
compared against the source-derived similarity. -/
def specSimilarity (a b : String) : Rat :=
  ((commonPrefixLen a.data b.data : Int) : Rat) / ((a.data.length : Int) : Rat) * (1 / 2) +
    levSimilarity a b * (1 / 2)

/-- Argument-list evaluation in the caller's environment, the
specification-side decomposition of the binding loop (claim C1): the same
left-to-right evaluation bindArgs performs, with the values collected in
order. -/
def evalArgs (reg : List UnitDef) (fuel : Nat) (args : List Node) (env : Environment) :
    Except Failure (List Object × Environment) :=
  match fuel with
  | 0 => Except.error Failure.fuel
  | fuel + 1 =>
    match args with
    | [] => Except.ok ([], env)
    | a :: rest => do
      let (v, env1) ← Eval reg fuel a env
      let (vs, env2) ← evalArgs reg fuel rest env1
      Except.ok (v :: vs, env2)

/-- The declared parameter names read positionally from index i for k
arguments; none when a position is missing or not an identifier node
(which the Go code reaches only by panicking). -/
def namesFrom (params : List Node) : Nat → Nat → Option (List String)
  | _, 0 => some []
  | i, k + 1 =>
    match params[i]? with
    | some (Node.identifier s) => (namesFrom params (i + 1) k).map (fun ns => s :: ns)
    | _ => none

/-- Positional binding of evaluated argument values to parameter names,
the specification-side folding of claim C1. -/
def zipBind (vars : List (String × Object)) : List String → List Object → List (String × Object)
  | n :: ns, v :: vs => zipBind (insertAssoc vars n v) ns vs
  | _, _ => vars

/-! ## Shared lemmas about the rounding step. -/

theorem goRound_intCast (n : Int) : goRound ((n : Int) : Rat) = n := by
  unfold goRound
  by_cases h : (0 : Rat) ≤ (n : Rat)
  · rw [if_pos h, show ((n : Rat) + 1 / 2) = ((1 / 2 : Rat) + (n : Int)) by ring,
      Int.floor_add_int, show ⌊(1 / 2 : Rat)⌋ = 0 by with_unfolding_all rfl, zero_add]
  · rw [if_neg h, show ((n : Rat) - 1 / 2) = ((-(1 / 2) : Rat) + (n : Int)) by ring,
      Int.ceil_add_int, show ⌈(-(1 / 2) : Rat)⌉ = 0 by with_unfolding_all rfl, zero_add]

theorem roundTo5_idem (x : Rat) : roundTo5 (roundTo5 x) = roundTo5 x := by
  unfold roundTo5
  have h : ((goRound (x * 100000) : Int) : Rat) / 100000 * 100000 =
      ((goRound (x * 100000) : Int) : Rat) :=
    div_mul_cancel₀ _ (by norm_num)
  rw [h, goRound_intCast]

theorem formatFloat_intCast (n : Int) : formatFloat ((n : Int) : Rat) = Object.integer n := by
  unfold formatFloat
  rw [if_pos (Rat.den_intCast n), Rat.num_intCast]

/-! ## Claim C9: the normalization step. -/

/-- C9, counterexample.  The normalization step can output a Float whose
value is integral: 999999 / 1000000 rounds at 5 decimals to exactly 1,
kept as a Float because the input had a fractional part.  Applying the
normalization to that already-normalized Float result yields Integer 1,
a different value, so the step is not idempotent on normalized Float
results as the claim states. -/
theorem c9_counterexample :
    evalNumberInfixOp [] (Object.integer 999999) (Object.integer 1000000) lexer.DIV =
      Except.ok (Object.float 1) ∧
    formatFloat ((999999 : Rat) / 1000000) = Object.float 1 ∧
    formatFloat ((Object.float 1).inspect) = Object.integer 1 ∧
    Object.integer 1 ≠ Object.float 1 := by
  refine ⟨by with_unfolding_all rfl, by with_unfolding_all rfl, by with_unfolding_all rfl, ?_⟩
  intro h
  exact Object.noConfusion h

/-- C9, amended: the normalization step is the identity (as an Integer) on
every integral value; the 5-decimal magnitude rounding is idempotent on
every value; and re-normalizing an already-normalized Float result
reproduces it whenever the rounded magnitude itself still has a
fractional part — when the rounded magnitude is integral the second
normalization instead returns the Integer of the same magnitude. -/
theorem c9_amended :
    (∀ n : Int, formatFloat ((n : Int) : Rat) = Object.integer n) ∧
    (∀ x : Rat, roundTo5 (roundTo5 x) = roundTo5 x) ∧
    (∀ x : Rat, x.den ≠ 1 → (roundTo5 x).den ≠ 1 →
      formatFloat ((formatFloat x).inspect) = formatFloat x) := by
  refine ⟨formatFloat_intCast, roundTo5_idem, ?_⟩
  intro x hx hr
  have h1 : formatFloat x = Object.float (roundTo5 x) := by
    unfold formatFloat
    rw [if_neg hx]
  rw [h1]
  show formatFloat (roundTo5 x) = Object.float (roundTo5 x)
  unfold formatFloat
  rw [if_neg hr, roundTo5_idem]

/-- C9, witness for the amended theorem at concrete inputs: the identity
on the integer 7, rounding idempotence at 1/3, and object-level
idempotence at 1/3 (whose rounded magnitude 33333/100000 is not
integral). -/
theorem c9_amended_witness :
    formatFloat ((7 : Int) : Rat) = Object.integer 7 ∧
    roundTo5 (roundTo5 ((1 : Rat) / 3)) = roundTo5 ((1 : Rat) / 3) ∧
    formatFloat ((formatFloat ((1 : Rat) / 3)).inspect) = formatFloat ((1 : Rat) / 3) := by
  refine ⟨c9_amended.1 7, c9_amended.2.1 ((1 : Rat) / 3), c9_amended.2.2 ((1 : Rat) / 3) ?_ ?_⟩
  · with_unfolding_all decide
  · with_unfolding_all decide

/-! ## Claim C4: unit tagging of numeric infix results. -/

theorem formatFloat_unitTag (x : Rat) : (formatFloat x).unitTag = none := by
  unfold formatFloat
  split <;> rfl

/-- C4 (confirmed): for every numeric infix operation that succeeds, the
result's unit is the right operand's when the right operand carries one,
else the left operand's when it carries one, else absent — so with exactly
one unit operand the result keeps that unit regardless of operand order —
and when both operands are units the left magnitude is first converted
into the right operand's unit and the operation applies to the converted
magnitude with the result tagged by the right unit. -/
theorem c4_unit_tagging (reg : List UnitDef) (l r : Object) (op : String) (res : Object)
    (hl : l.isNumber = true) (hr : r.isNumber = true)
    (hres : evalNumberInfixOp reg l r op = Except.ok res) :
    (res.unitTag = match r.unitTag, l.unitTag with
      | some u, _ => some u
      | none, some u => some u
      | none, none => none) ∧
    (∀ lv lu rv ru, l = Object.unit lv lu → r = Object.unit rv ru →
      ∃ c, convert reg lv lu ru = Except.ok c ∧
        res = Object.unit (formatFloat (binaryOperations c.inspect rv op)).inspect ru) := by
  clear hl hr
  cases l <;> cases r <;> simp only [evalNumberInfixOp] at hres <;>
    first
    | (cases hres
       refine ⟨by first
         | (rw [formatFloat_unitTag]; simp [Object.unitTag])
         | simp [Object.unitTag], ?_⟩
       intro lv lu rv ru hL hR
       cases hL <;> cases hR)
    | (rename_i lv lu rv ru
       cases hconv : convert reg lv lu ru with
       | error e =>
         rw [hconv] at hres
         cases hres
       | ok c =>
         rw [hconv] at hres
         cases hres
         refine ⟨by simp [Object.unitTag], ?_⟩
         intro lv' lu' rv' ru' hL hR
         cases hL
         cases hR
         exact ⟨c, hconv, rfl⟩)

/-- C4, witness: the tag equation applied in both operand orders at
3 + 2 meter and 2 meter + 3, and the two-unit conversion clause at
1 meter + 1 meter, which evaluates to 2 meter. -/
theorem c4_unit_tagging_witness :
    (Object.unit 5 "meter").unitTag = some "meter" ∧
    (Object.unit 5 "meter").unitTag = some "meter" ∧
    (∃ c, convert [] 1 "meter" "meter" = Except.ok c ∧
      Object.unit 2 "meter" =
        Object.unit (formatFloat (binaryOperations c.inspect 1 lexer.ADD)).inspect "meter") ∧
    evalNumberInfixOp [] (Object.unit 1 "meter") (Object.unit 1 "meter") lexer.ADD =
      Except.ok (Object.unit 2 "meter") := by
  have hofe : evalNumberInfixOp [] (Object.integer 3) (Object.unit 2 "meter") lexer.ADD =
      Except.ok (Object.unit 5 "meter") := by with_unfolding_all rfl
  have hofe2 : evalNumberInfixOp [] (Object.unit 2 "meter") (Object.integer 3) lexer.ADD =
      Except.ok (Object.unit 5 "meter") := by with_unfolding_all rfl
  have hboth : evalNumberInfixOp [] (Object.unit 1 "meter") (Object.unit 1 "meter") lexer.ADD =
      Except.ok (Object.unit 2 "meter") := by with_unfolding_all rfl
  have h1 := c4_unit_tagging [] (Object.integer 3) (Object.unit 2 "meter") lexer.ADD
    (Object.unit 5 "meter") rfl rfl hofe
  have h2 := c4_unit_tagging [] (Object.unit 2 "meter") (Object.integer 3) lexer.ADD
    (Object.unit 5 "meter") rfl rfl hofe2
  have h3 := c4_unit_tagging [] (Object.unit 1 "meter") (Object.unit 1 "meter") lexer.ADD
    (Object.unit 2 "meter") rfl rfl hboth
  exact ⟨h1.1, h2.1, h3.2 1 "meter" 1 "meter" rfl rfl, hboth⟩

/-! ## Claim C5: comparison results. -/

/-- C5, counterexample.  A comparison whose right operand is a UnitValue
does not produce a bare Integer: 3 < 2 meter evaluates to the UnitValue
(0, meter), not to Integer 0 as the claim requires at this input. -/
theorem c5_counterexample :
    evalNumberInfixOp [] (Object.integer 3) (Object.unit 2 "meter") lexer.LT =
      Except.ok (Object.unit 0 "meter") ∧
    (Except.ok (Object.unit 0 "meter") : Except Failure Object) ≠
      Except.ok (Object.integer 0) := by
  refine ⟨by with_unfolding_all rfl, ?_⟩
  intro h
  exact Object.noConfusion (Except.ok.inj h)

/-- C5, amended: when neither operand is a UnitValue, each comparison
operation yields Integer 1 when the comparison of the magnitudes holds and
Integer 0 otherwise; when an operand is a UnitValue the same 0/1 magnitude
is instead wrapped as a UnitValue under the unit-tagging rules. -/
theorem c5_amended (reg : List UnitDef) (l r : Object)
    (hl : l.isPlainNumber = true) (hr : r.isPlainNumber = true) :
    (evalNumberInfixOp reg l r lexer.EE =
      Except.ok (Object.integer (if l.inspect = r.inspect then 1 else 0))) ∧
    (evalNumberInfixOp reg l r lexer.NE =
      Except.ok (Object.integer (if l.inspect ≠ r.inspect then 1 else 0))) ∧
    (evalNumberInfixOp reg l r lexer.LT =
      Except.ok (Object.integer (if l.inspect < r.inspect then 1 else 0))) ∧
    (evalNumberInfixOp reg l r lexer.LTE =
      Except.ok (Object.integer (if l.inspect ≤ r.inspect then 1 else 0))) ∧
    (evalNumberInfixOp reg l r lexer.GT =
      Except.ok (Object.integer (if l.inspect > r.inspect then 1 else 0))) ∧
    (evalNumberInfixOp reg l r lexer.GTE =
      Except.ok (Object.integer (if l.inspect ≥ r.inspect then 1 else 0))) := by
  have key : ∀ op : String,
      evalNumberInfixOp reg l r op =
        Except.ok (formatFloat (binaryOperations l.inspect r.inspect op)) := by
    intro op
    cases l <;> simp [Object.isPlainNumber] at hl <;>
      cases r <;> simp [Object.isPlainNumber] at hr <;>
      simp [evalNumberInfixOp]
  have cmp : ∀ (P : Prop) [Decidable P],
      formatFloat ((boolToInt P : Int) : Rat) = Object.integer (if P then 1 else 0) := by
    intro P hP
    rw [formatFloat_intCast]
    rfl
  refine ⟨?_, ?_, ?_, ?_, ?_, ?_⟩ <;> rw [key] <;>
    simp only [binaryOperations, lexer.ADD, lexer.SUB, lexer.DIV, lexer.MUL, lexer.POW,
      lexer.MOD, lexer.EE, lexer.NE, lexer.LT, lexer.LTE, lexer.GT, lexer.GTE,
      String.reduceEq, if_false, if_true, reduceIte] <;>
    rw [cmp]

/-- C5, witness for the amended theorem at 1 and 2: the six comparisons of
two plain integers produce Integer 0/1. -/
theorem c5_amended_witness :
    evalNumberInfixOp [] (Object.integer 1) (Object.integer 2) lexer.EE =
      Except.ok (Object.integer 0) ∧
    evalNumberInfixOp [] (Object.integer 1) (Object.integer 2) lexer.NE =
      Except.ok (Object.integer 1) ∧
    evalNumberInfixOp [] (Object.integer 1) (Object.integer 2) lexer.LT =
      Except.ok (Object.integer 1) ∧
    evalNumberInfixOp [] (Object.integer 1) (Object.integer 2) lexer.LTE =
      Except.ok (Object.integer 1) ∧
    evalNumberInfixOp [] (Object.integer 1) (Object.integer 2) lexer.GT =
      Except.ok (Object.integer 0) ∧
    evalNumberInfixOp [] (Object.integer 1) (Object.integer 2) lexer.GTE =
      Except.ok (Object.integer 0) := by
  have h := c5_amended [] (Object.integer 1) (Object.integer 2) rfl rfl
  exact ⟨h.1.trans (by with_unfolding_all rfl), h.2.1.trans (by with_unfolding_all rfl),
    h.2.2.1.trans (by with_unfolding_all rfl), h.2.2.2.1.trans (by with_unfolding_all rfl),
    h.2.2.2.2.1.trans (by with_unfolding_all rfl), h.2.2.2.2.2.trans (by with_unfolding_all rfl)⟩

/-! ## Bind-reduction helpers for the Except monad. -/

theorem exceptBind_ok {α β : Type} (a : α) (f : α → Except Failure β) :
    (do
      let x ← (Except.ok a : Except Failure α)
      f x) = f a := rfl

theorem exceptBind_error {α β : Type} (e : Failure) (f : α → Except Failure β) :
    (do
      let x ← (Except.error e : Except Failure α)
      f x) = Except.error e := rfl

/-! ## Claim C6: IN with a non-identifier right-hand side. -/

/-- C6 (confirmed): whenever the left operand of an IN binary node
evaluates successfully and the right-hand side is syntactically not a bare
identifier, evaluation fails with the ConversionError naming the left
operand's runtime type — regardless of what that type is. -/
theorem c6_in_nonidentifier (reg : List UnitDef) (fuel : Nat) (nleft nright : Node)
    (env env1 : Environment) (leftObj : Object)
    (hEval : Eval reg fuel nleft env = Except.ok (leftObj, env1))
    (hne : nright.nodeType ≠ lexer.IDENTIFIER_NODE) :
    evalBinaryOp reg (fuel + 1) nleft lexer.IN nright env =
      Except.error (Failure.err
        ("ConversionError: IN cannot convert " ++ leftObj.typeStr ++ " and " ++ nright.nodeType)) := by
  simp [evalBinaryOp, hEval, hne, exceptBind_ok]

/-- C6, witness: 3 in 5 (an IN whose right-hand side is an integer
literal) fails with the ConversionError for INT_OBJ and INT_NODE. -/
theorem c6_in_nonidentifier_witness :
    evalBinaryOp [] 2 (Node.int 3) lexer.IN (Node.int 5) emptyTopEnv =
      Except.error (Failure.err "ConversionError: IN cannot convert INT_OBJ and INT_NODE") := by
  have h := c6_in_nonidentifier [] 1 (Node.int 3) (Node.int 5) emptyTopEnv emptyTopEnv
    (Object.integer 3) (by with_unfolding_all rfl) (by with_unfolding_all decide)
  exact h.trans (by with_unfolding_all rfl)

/-! ## Claim C10: IN on a plain number with an identifier target. -/

/-- C10 (confirmed): a plain (non-UnitValue) numeric left operand with a
bare identifier U to the right of IN evaluates to UnitValue(x, U) for
every registry — the conversion short-circuits on equal unit names before
any registry lookup, so this succeeds even when U is defined in no
registry. -/
theorem c10_plain_number_in (reg : List UnitDef) (fuel : Nat) (nleft : Node) (U : String)
    (env env1 : Environment) (x : Object)
    (hEval : Eval reg fuel nleft env = Except.ok (x, env1))
    (hx : x.isPlainNumber = true) :
    evalBinaryOp reg (fuel + 1) nleft lexer.IN (Node.identifier U) env =
      Except.ok (Object.unit x.inspect U, env1) := by
  cases x <;> simp [Object.isPlainNumber] at hx <;>
    simp [evalBinaryOp, hEval, Node.nodeType, Node.identName, Object.isNumber, convert,
      exceptBind_ok]

/-- C10, witness: 3 in blorp succeeds with UnitValue(3, blorp) in the
empty registry, where blorp is not a defined unit. -/
theorem c10_plain_number_in_witness :
    evalBinaryOp [] 2 (Node.int 3) lexer.IN (Node.identifier "blorp") emptyTopEnv =
      Except.ok (Object.unit 3 "blorp", emptyTopEnv) := by
  have h := c10_plain_number_in [] 1 (Node.int 3) "blorp" emptyTopEnv emptyTopEnv
    (Object.integer 3) (by with_unfolding_all rfl) rfl
  exact h.trans (by with_unfolding_all rfl)

/-! ## Claim C8: unterminated argument lists. -/

/-- C8, counterexample.  The source f(2, 3 reaches end of input inside a
function-call argument list, yet parsing the program succeeds: the
unclosed-parenthesis error raised by parseParameters is discarded at
parsePrefix's IDENTIFIER arm (part_000 lines 188-191), which returns an
ErrorNode with a nil error, so an AST is produced and no syntax error is
reported. -/
theorem c8_counterexample :
    parseTokens 20 tokensUnterminatedCall = Except.ok (Node.program [Node.errorNode]) := by
  with_unfolding_all rfl

/-- C8, amended: an array argument list not closed by its terminator
before end-of-file or a semicolon is a syntax error (no AST); but an
unterminated function-call argument list is not — the parser swallows the
error and parsing succeeds with an ErrorNode in place of the call. -/
theorem c8_amended :
    parseTokens 20 tokensUnterminatedArray =
      Except.error (Failure.err "SyntaxError: Unclosed parenthesis parseParameters()") ∧
    parseTokens 20 tokensUnterminatedCallB = Except.ok (Node.program [Node.errorNode]) := by
  exact ⟨by with_unfolding_all rfl, by with_unfolding_all rfl⟩

/-! ## Claim C2: the define add example. -/

/-- C2, counterexample.  Parsing and evaluating
define add(a, b) => a + b; add(2, 3) yields the one-element result list
[Nil], not [Nil, Integer 5]: the function body consumes every remaining
statement up to end of input, so add(2, 3) is parsed into the body of add
and never evaluated at top level. -/
theorem c2_counterexample :
    runDefineAdd = Except.ok (Object.program [Object.nil]) ∧
    runDefineAdd ≠ Except.ok (Object.program [Object.nil, Object.integer 5]) := by
  have h : runDefineAdd = Except.ok (Object.program [Object.nil]) := by
    with_unfolding_all rfl
  refine ⟨h, ?_⟩
  rw [h]
  intro hContra
  have := Object.program.inj (Except.ok.inj hContra)
  simp at this

/-- C2, amended: the source parses to a single top-level statement — a
function definition whose body Program contains both a + b and the call
add(2, 3) — and evaluating the program in an environment with no prior
bindings yields the result list [Nil]. -/
theorem c2_amended :
    parseTokens 30 tokensDefineAdd = Except.ok astDefineAdd ∧
    runDefineAdd = Except.ok (Object.program [Object.nil]) := by
  exact ⟨by with_unfolding_all rfl, by with_unfolding_all rfl⟩

/-! ## Claim C1: the environment of a user-function invocation. -/

/-- Correspondence between the source binding loop and its
specification-side decomposition: a successful bindArgs run evaluates the
arguments left to right in the caller's environment (evalArgs) and folds
the values positionally over the declared parameter names into the
initial callee environment, touching no other field of it. -/
theorem bindArgs_ok_spec (reg : List UnitDef) :
    ∀ (args : List Node) (fuel : Nat) (params : List Node) (i : Nat)
      (cenv0 env cenv env' : Environment),
      bindArgs reg fuel params args i cenv0 env = Except.ok (cenv, env') →
      ∃ names vals,
        namesFrom params i args.length = some names ∧
        evalArgs reg fuel args env = Except.ok (vals, env') ∧
        cenv = { cenv0 with Variables := zipBind cenv0.Variables names vals } := by
  intro args
  induction args with
  | nil =>
    intro fuel params i cenv0 env cenv env' h
    cases fuel with
    | zero => cases h
    | succ fuel =>
      simp only [bindArgs] at h
      cases h
      exact ⟨[], [], rfl, rfl, rfl⟩
  | cons a rest ih =>
    intro fuel params i cenv0 env cenv env' h
    cases fuel with
    | zero => cases h
    | succ fuel =>
      simp only [bindArgs] at h
      split at h
      · cases h
      · rename_i s hp
        cases hE : Eval reg fuel a env with
        | error e =>
          rw [hE, exceptBind_error] at h
          cases h
        | ok ve =>
          obtain ⟨v, env1⟩ := ve
          rw [hE, exceptBind_ok] at h
          obtain ⟨names, vals, hn, he, hc⟩ := ih fuel params (i + 1) _ env1 cenv env' h
          refine ⟨s :: names, v :: vals, ?_, ?_, ?_⟩
          · simp [namesFrom, hp, hn]
          · simp [evalArgs, hE, he, exceptBind_ok]
          · rw [hc]
            rfl
      · cases h

/-- C1, counterexample.  The caller environment defines both f and g, and
the claim's fresh environment would carry the same functions table, so
evaluating f() — whose body is the single statement g() — would resolve g
and return Integer 1.  Instead the call fails with FunctionCallError for
g: the environment built at evalFunctionCall line 231 has a freshly made
empty functions map, not the caller's. -/
theorem c1_counterexample :
    (lookupAssoc envTwoFunctions.Functions "g").isSome = true ∧
    Eval [] 10 (Node.functionCall "f" []) envTwoFunctions =
      Except.error (Failure.err "FunctionCallError: Function with Identifer g is not defined") := by
  exact ⟨by with_unfolding_all rfl, by with_unfolding_all rfl⟩

/-- C1, amended: a user-function invocation evaluates its arguments in the
caller's environment and binds the results positionally to the declared
parameter names in a fresh environment containing exactly those bindings —
none of the caller's variables, an empty constants table, no periodic
table, and a freshly created empty functions table (not the caller's
table, so the body cannot resolve any user-defined function). -/
theorem c1_amended (reg : List UnitDef) (fuel : Nat) (params args : List Node)
    (env cenv env' : Environment)
    (h : bindArgs reg fuel params args 0 freshCallEnv env = Except.ok (cenv, env')) :
    cenv.Functions = [] ∧ cenv.Constants = [] ∧ cenv.PeriodicTable = none ∧
    ∃ names vals,
      namesFrom params 0 args.length = some names ∧
      evalArgs reg fuel args env = Except.ok (vals, env') ∧
      cenv.Variables = zipBind [] names vals := by
  obtain ⟨names, vals, hn, he, hc⟩ :=
    bindArgs_ok_spec reg args fuel params 0 freshCallEnv env cenv env' h
  subst hc
  exact ⟨rfl, rfl, rfl, names, vals, hn, he, rfl⟩

/-- C1, witness for the amended theorem: binding the single argument 7 to
the declared parameter a from a caller environment with no variables
produces the callee environment with exactly that binding and empty
functions, constants and periodic-table fields. -/
theorem c1_amended_witness :
    (⟨[("a", Object.integer 7)], [], [], none⟩ : Environment).Functions = [] ∧
    ∃ names vals,
      namesFrom [Node.identifier "a"] 0 [Node.int 7].length = some names ∧
      evalArgs [] 3 [Node.int 7] emptyTopEnv = Except.ok (vals, emptyTopEnv) ∧
      (⟨[("a", Object.integer 7)], [], [], none⟩ : Environment).Variables =
        zipBind [] names vals := by
  have hb : bindArgs [] 3 [Node.identifier "a"] [Node.int 7] 0 freshCallEnv emptyTopEnv =
      Except.ok ((⟨[("a", Object.integer 7)], [], [], none⟩ : Environment), emptyTopEnv) := by
    with_unfolding_all rfl
  have h := c1_amended [] 3 [Node.identifier "a"] [Node.int 7] emptyTopEnv _ emptyTopEnv hb
  exact ⟨h.1, h.2.2.2⟩

/-! ## Lemmas on the shared-prefix length and the similarity scan. -/

theorem commonPrefixLen_le : ∀ as bs : List Char, commonPrefixLen as bs ≤ as.length := by
  intro as
  induction as with
  | nil => intro bs; cases bs <;> simp [commonPrefixLen]
  | cons a as ih =>
    intro bs
    cases bs with
    | nil => simp [commonPrefixLen]
    | cons b bs =>
      by_cases hab : a = b
      · simpa [commonPrefixLen, hab] using ih bs
      · simp [commonPrefixLen, hab]

theorem commonPrefixLen_eq_length_iff :
    ∀ as bs : List Char, commonPrefixLen as bs = as.length ↔ as <+: bs := by
  intro as
  induction as with
  | nil =>
    intro bs
    cases bs <;> simp [commonPrefixLen]
  | cons a as ih =>
    intro bs
    cases bs with
    | nil =>
      simp [commonPrefixLen]
    | cons b bs =>
      by_cases hab : a = b
      · subst hab
        simp [commonPrefixLen, List.cons_prefix_cons, ih bs]
      · simp [commonPrefixLen, hab, List.cons_prefix_cons]

/-- Either the scan never improves on its accumulator, or it ends strictly
above the accumulator's score. -/
theorem simFold_cases (a : String) :
    ∀ (l : List (String × Object)) (m : String) (v : Rat),
      l.foldl (simStep a) (m, v) = (m, v) ∨ v < (l.foldl (simStep a) (m, v)).2 := by
  intro l
  induction l with
  | nil => intro m v; exact Or.inl rfl
  | cons p l ih =>
    intro m v
    rw [List.foldl_cons]
    by_cases hif : similarity a p.1 > v
    · have hstep : simStep a (m, v) p = (p.1, similarity a p.1) := by
        simp [simStep, hif]
      rw [hstep]
      rcases ih p.1 (similarity a p.1) with h | h
      · right
        rw [h]
        exact hif
      · right
        exact lt_trans hif h
    · have hstep : simStep a (m, v) p = (m, v) := by
        simp [simStep, hif]
      rw [hstep]
      exact ih m v

/-- A scan that improved on its accumulator returns the name and score of
some list element. -/
theorem simFold_mem (a : String) :
    ∀ (l : List (String × Object)) (m : String) (v : Rat),
      v < (l.foldl (simStep a) (m, v)).2 →
      ∃ p ∈ l, (l.foldl (simStep a) (m, v)).1 = p.1 ∧
        (l.foldl (simStep a) (m, v)).2 = similarity a p.1 := by
  intro l
  induction l with
  | nil =>
    intro m v h
    exact absurd h (lt_irrefl v)
  | cons p l ih =>
    intro m v h
    rw [List.foldl_cons] at h ⊢
    by_cases hif : similarity a p.1 > v
    · have hstep : simStep a (m, v) p = (p.1, similarity a p.1) := by
        simp [simStep, hif]
      rw [hstep] at h ⊢
      rcases simFold_cases a l p.1 (similarity a p.1) with hc | hc
      · exact ⟨p, List.mem_cons_self p l, by rw [hc], by rw [hc]⟩
      · obtain ⟨q, hq, h1, h2⟩ := ih p.1 (similarity a p.1) hc
        exact ⟨q, List.mem_cons_of_mem p hq, h1, h2⟩
    · have hstep : simStep a (m, v) p = (m, v) := by
        simp [simStep, hif]
      rw [hstep] at h ⊢
      obtain ⟨q, hq, h1, h2⟩ := ih m v h
      exact ⟨q, List.mem_cons_of_mem p hq, h1, h2⟩

/-- A scan that improved on its accumulator returns the first element
attaining the final score: ties keep the first-seen maximum. -/
theorem simFold_first_max (a : String) :
    ∀ (l : List (String × Object)) (m : String) (v : Rat),
      v < (l.foldl (simStep a) (m, v)).2 →
      ∃ p, l.find? (fun q => similarity a q.1 = (l.foldl (simStep a) (m, v)).2) = some p ∧
        p.1 = (l.foldl (simStep a) (m, v)).1 := by
  intro l
  induction l with
  | nil =>
    intro m v h
    exact absurd h (lt_irrefl v)
  | cons p l ih =>
    intro m v h
    rw [List.foldl_cons] at h ⊢
    by_cases hif : similarity a p.1 > v
    · have hstep : simStep a (m, v) p = (p.1, similarity a p.1) := by
        simp [simStep, hif]
      rw [hstep] at h ⊢
      rcases simFold_cases a l p.1 (similarity a p.1) with hc | hc
      · refine ⟨p, ?_, by rw [hc]⟩
        rw [hc]
        exact List.find?_cons_of_pos _ (by simp)
      · obtain ⟨q, hfind, hq⟩ := ih p.1 (similarity a p.1) hc
        refine ⟨q, ?_, hq⟩
        rw [List.find?_cons_of_neg _ (by simpa using ne_of_lt hc)]
        exact hfind
    · have hstep : simStep a (m, v) p = (m, v) := by
        simp [simStep, hif]
      rw [hstep] at h ⊢
      obtain ⟨q, hfind, hq⟩ := ih m v h
      refine ⟨q, ?_, hq⟩
      have hple : similarity a p.1 ≤ v := not_lt.mp hif
      rw [List.find?_cons_of_neg _ (by simpa using ne_of_lt (lt_of_le_of_lt hple h))]
      exact hfind

/-- The element find? returns under a predicate that depends only on the
key is also the association-list binding of its key: no earlier entry can
share the key, or the predicate would have selected it. -/
theorem find?_fst_lookupAssoc (g : String → Prop) [DecidablePred g] :
    ∀ (l : List (String × Object)) (q : String × Object),
      l.find? (fun p => g p.1) = some q → lookupAssoc l q.1 = some q.2 := by
  intro l
  induction l with
  | nil =>
    intro q h
    cases h
  | cons p l ih =>
    intro q h
    by_cases hg : g p.1
    · rw [List.find?_cons_of_pos _ (by simpa using hg)] at h
      cases h
      unfold lookupAssoc
      rw [List.find?_cons_of_pos _ (by simp)]
    · rw [List.find?_cons_of_neg _ (by simpa using hg)] at h
      have hq := ih q h
      have hgq : g q.1 := by
        have := List.find?_some h
        simpa using this
      have hne : ¬(p.1 = q.1) := fun hEq => hg (hEq ▸ hgq)
      unfold lookupAssoc at hq ⊢
      rw [List.find?_cons_of_neg _ (by simpa using hne)]
      exact hq

/-- A present key looks up to a value bound to it in the list. -/
theorem lookupAssoc_of_memKey :
    ∀ (l : List (String × Object)) (p : String × Object), p ∈ l →
      ∃ w, lookupAssoc l p.1 = some w ∧ (p.1, w) ∈ l := by
  intro l
  induction l with
  | nil =>
    intro p h
    cases h
  | cons q l ih =>
    intro p h
    by_cases hk : q.1 = p.1
    · refine ⟨q.2, ?_, ?_⟩
      · unfold lookupAssoc
        rw [List.find?_cons_of_pos _ (by simpa using hk)]
      · rw [← hk, Prod.mk.eta]
        exact List.mem_cons_self q l
    · have hpl : p ∈ l := by
        rcases List.mem_cons.mp h with h1 | h1
        · exact absurd (h1 ▸ rfl) hk
        · exact h1
      obtain ⟨w, hw, hmem⟩ := ih p hpl
      refine ⟨w, ?_, List.mem_cons_of_mem q hmem⟩
      unfold lookupAssoc at hw ⊢
      rw [List.find?_cons_of_neg _ (by simpa using hk)]
      exact hw

/-- Reduction of the identifier evaluation under misses of the constants
table, the element table (loaded) and the exact variable match: what
remains is the undefined-variable check and the fuzzy scan. -/
theorem evalIdentifier_fuzzy (a : String) (env : Environment) (pt : List Element)
    (hPT : env.PeriodicTable = some pt)
    (hC : lookupAssoc env.Constants a = none)
    (hEl : pt.find? (fun e => e.symbol = a || equalFold e.name a) = none)
    (hV : lookupAssoc env.Variables a = none) :
    evalIdentifier a env =
      if env.Variables.length < 1 then
        Except.error (Failure.err ("VarAccessError: Undefined variable identifier " ++ a))
      else Except.ok (lookupAssocD env.Variables (maxSimFold a env.Variables).1, env) := by
  simp [evalIdentifier, hC, hPT, lookupElements, hEl, hV]

/-! ## Claim C3: the similarity score and fuzzy resolution. -/

/-- C3, counterexample.  At queried name ab and bound name ac the source
similarity is 1/4 while the claimed formula gives 1/2: the shared-prefix
term i / len(a) is Go integer division (i = 1, len = 2 gives 0), not the
real division 1/2 the claim states. -/
theorem c3_counterexample :
    similarity "ab" "ac" = 1 / 4 ∧ specSimilarity "ab" "ac" = 1 / 2 ∧
    similarity "ab" "ac" ≠ specSimilarity "ab" "ac" := by
  have h1 : similarity "ab" "ac" = 1 / 4 := by with_unfolding_all rfl
  have h2 : specSimilarity "ab" "ac" = 1 / 2 := by with_unfolding_all rfl
  refine ⟨h1, h2, fun h => ?_⟩
  rw [h1, h2] at h
  exact absurd h (by norm_num)

/-- C3, amended: the similarity score is 0.5 times the integer quotient of
the shared-prefix length by the queried name's length — which is 1 exactly
when the queried name is a prefix of the bound name and 0 otherwise — plus
0.5 times the Levenshtein similarity; and whenever the maximum score over
the bound variables is positive, fuzzy resolution returns the value of the
first-seen variable attaining that maximum. -/
theorem c3_amended :
    (∀ a b : String, a.data ≠ [] →
      similarity a b =
        (if a.data <+: b.data then (1 : Rat) else 0) * (1 / 2) + levSimilarity a b * (1 / 2)) ∧
    (∀ (a : String) (env : Environment) (pt : List Element),
      env.PeriodicTable = some pt →
      lookupAssoc env.Constants a = none →
      pt.find? (fun e => e.symbol = a || equalFold e.name a) = none →
      lookupAssoc env.Variables a = none →
      0 < (maxSimFold a env.Variables).2 →
      ∃ p, env.Variables.find?
          (fun q => similarity a q.1 = (maxSimFold a env.Variables).2) = some p ∧
        p.1 = (maxSimFold a env.Variables).1 ∧
        evalIdentifier a env = Except.ok (p.2, env)) := by
  constructor
  · intro a b ha
    have hlen : 0 < a.data.length := List.length_pos.mpr ha
    simp only [similarity]
    by_cases hp : a.data <+: b.data
    · rw [if_pos hp, (commonPrefixLen_eq_length_iff _ _).mpr hp, Nat.div_self hlen]
      norm_num
    · rw [if_neg hp]
      have hne : commonPrefixLen a.data b.data ≠ a.data.length :=
        fun h => hp ((commonPrefixLen_eq_length_iff _ _).mp h)
      rw [Nat.div_eq_of_lt (lt_of_le_of_ne (commonPrefixLen_le a.data b.data) hne)]
      norm_num
  · intro a env pt hPT hC hEl hV hpos
    have hne : env.Variables ≠ [] := by
      intro h0
      rw [h0] at hpos
      simp [maxSimFold] at hpos
    obtain ⟨p, hfind, hp1⟩ :=
      simFold_first_max a env.Variables "" 0 (by simpa [maxSimFold] using hpos)
    have hlook : lookupAssoc env.Variables p.1 = some p.2 :=
      find?_fst_lookupAssoc
        (fun x => similarity a x = (env.Variables.foldl (simStep a) ("", 0)).2)
        env.Variables p hfind
    refine ⟨p, by simpa [maxSimFold] using hfind, by simpa [maxSimFold] using hp1, ?_⟩
    rw [evalIdentifier_fuzzy a env pt hPT hC hEl hV,
      if_neg (by simpa [Nat.lt_one_iff, List.length_eq_zero] using hne)]
    have hD : lookupAssocD env.Variables (maxSimFold a env.Variables).1 = p.2 := by
      unfold maxSimFold
      rw [← hp1]
      simp [lookupAssocD, hlook]
    rw [hD]

/-- C3, witness for the amended theorem: the formula at the pair (ab, ac),
and the resolution clause in an environment binding x to 5 and y to 7
queried with the name yy, whose best-scoring bound name is y with positive
score 1/4, so evaluation returns Integer 7. -/
theorem c3_amended_witness :
    (similarity "ab" "ac" =
      (if ("ab" : String).data <+: ("ac" : String).data then (1 : Rat) else 0) * (1 / 2) +
        levSimilarity "ab" "ac" * (1 / 2)) ∧
    ∃ p, envTwoVariables.Variables.find?
        (fun q => similarity "yy" q.1 = (maxSimFold "yy" envTwoVariables.Variables).2) = some p ∧
      p.1 = (maxSimFold "yy" envTwoVariables.Variables).1 ∧
      evalIdentifier "yy" envTwoVariables = Except.ok (p.2, envTwoVariables) := by
  refine ⟨c3_amended.1 "ab" "ac" (by with_unfolding_all decide), ?_⟩
  exact c3_amended.2 "yy" envTwoVariables [] rfl rfl rfl (by with_unfolding_all rfl)
    (by with_unfolding_all decide)

/-! ## Claim C7: fuzzy resolution never errors with a bound variable. -/

/-- C7, counterexample.  With the single bound variable y (value Integer
1), evaluating the unmatched identifier x succeeds but yields the nil
interface object, not the best-similarity bound variable's value: every
bound name scores 0 against x, the scan never improves on its initial
empty name, and the map read Variables of an absent key returns the zero
value. -/
theorem c7_counterexample :
    Eval [] 1 (Node.identifier "x") envOneVariable = Except.ok (Object.null, envOneVariable) ∧
    envOneVariable.Variables = [("y", Object.integer 1)] ∧
    Object.null ≠ Object.integer 1 := by
  exact ⟨by with_unfolding_all rfl, rfl, fun h => Object.noConfusion h⟩

/-- C7, amended: for an identifier matching no constant, no element of a
loaded periodic table and no variable exactly, evaluation with at least
one bound variable never returns an error — it yields the value of some
bound variable whenever the maximum similarity score is positive, and the
nil interface object when every bound name scores 0 — and evaluation with
an empty variable table fails with the undefined-variable error.  Bound
names are assumed nonempty, as every parsed identifier is. -/
theorem c7_amended (a : String) (env : Environment) (pt : List Element)
    (hPT : env.PeriodicTable = some pt)
    (hC : lookupAssoc env.Constants a = none)
    (hEl : pt.find? (fun e => e.symbol = a || equalFold e.name a) = none)
    (hV : lookupAssoc env.Variables a = none)
    (hNoEmpty : ∀ p ∈ env.Variables, p.1 ≠ "") :
    (env.Variables = [] →
      evalIdentifier a env =
        Except.error (Failure.err ("VarAccessError: Undefined variable identifier " ++ a))) ∧
    (env.Variables ≠ [] →
      ∃ o, evalIdentifier a env = Except.ok (o, env) ∧
        (0 < (maxSimFold a env.Variables).2 → ∃ p ∈ env.Variables, o = p.2) ∧
        ((maxSimFold a env.Variables).2 = 0 → o = Object.null)) := by
  have hstep := evalIdentifier_fuzzy a env pt hPT hC hEl hV
  constructor
  · intro h0
    rw [hstep, if_pos (by simp [h0])]
  · intro hne
    rw [hstep, if_neg (by simpa [Nat.lt_one_iff, List.length_eq_zero] using hne)]
    refine ⟨lookupAssocD env.Variables (maxSimFold a env.Variables).1, rfl, ?_, ?_⟩
    · intro hpos
      obtain ⟨q, hq, h1, h2⟩ :=
        simFold_mem a env.Variables "" 0 (by simpa [maxSimFold] using hpos)
      obtain ⟨w, hw, hmem⟩ := lookupAssoc_of_memKey env.Variables q hq
      refine ⟨(q.1, w), hmem, ?_⟩
      show lookupAssocD env.Variables (maxSimFold a env.Variables).1 = w
      unfold maxSimFold
      rw [h1]
      simp [lookupAssocD, hw]
    · intro hzero
      have hfold : env.Variables.foldl (simStep a) ("", 0) = ("", 0) := by
        rcases simFold_cases a env.Variables "" 0 with h | h
        · exact h
        · exfalso
          unfold maxSimFold at hzero
          rw [hzero] at h
          exact lt_irrefl 0 h
      have hfindnone : env.Variables.find? (fun p => p.1 = "") = none :=
        List.find?_eq_none.mpr (fun x hx => by simpa using hNoEmpty x hx)
      show lookupAssocD env.Variables (maxSimFold a env.Variables).1 = Object.null
      unfold maxSimFold
      rw [hfold]
      simp [lookupAssocD, lookupAssoc, hfindnone]

/-- C7, witness for the amended theorem: querying x in the environment
binding only y (whose similarity to x is 0) returns without error, and the
zero-score clause yields the nil object. -/
theorem c7_amended_witness :
    ∃ o, evalIdentifier "x" envOneVariable = Except.ok (o, envOneVariable) ∧
      (0 < (maxSimFold "x" envOneVariable.Variables).2 →
        ∃ p ∈ envOneVariable.Variables, o = p.2) ∧
      ((maxSimFold "x" envOneVariable.Variables).2 = 0 → o = Object.null) := by
  exact (c7_amended "x" envOneVariable [] rfl rfl rfl rfl (by decide)).2 (by simp [envOneVariable])

end NumeriCal
